import Mathlib

/-
Verification development for the dummy-data management command
`common/management/commands/generate_all_dummy_data.py`.

The Python source is shallowly embedded below: every method of the `Command`
class that the checked properties touch is translated into a Lean function over
explicit state, and the third-party collaborators (the Django ORM, argparse
option parsing, the `faker` library, the `random` module) are modelled as
oracle structures whose outputs are universally quantified or constrained by
the contracts the specification assigns to them.
-/

namespace DummyGen

/-- decimal value as produced by `faker.pydecimal`: a sign, the digits of the
integer part, and the digits of the fractional part. -/
structure PyDecimal where
  negative : Bool
  intDigits : List Nat
  fracDigits : List Nat
deriving DecidableEq

/-- runtime value assigned to a model field by the generator.  `obj i` is a
reference to a related model instance with identity `i` (instances created by
the run are identified by their attempt index). -/
inductive Value where
  | str (s : String)
  | intV (n : Int)
  | boolV (b : Bool)
  | datetimeV (t : Nat)
  | dateV (t : Nat)
  | decV (d : PyDecimal)
  | obj (id : Nat)
deriving DecidableEq

/-- Django field classes that appear in the `isinstance` chain of
`Command.generate_field_value`, plus `manyToManyField` (iterated by
`handle_many_to_many_relations`) and `otherField` for any class outside the
recognized list (e.g. `JSONField`, `FileField`). -/
inductive FieldClass where
  | charField
  | emailField
  | urlField
  | textField
  | dateTimeField
  | dateField
  | booleanField
  | integerField
  | smallIntegerField
  | decimalField
  | foreignKey
  | manyToManyField
  | otherField
deriving DecidableEq

/-- isinstance(field, models.CharField).  In Django, `EmailField` and
`URLField` are declared as subclasses of `CharField`
(django/db/models/fields/__init__.py), so instances of those classes satisfy
this test as well. -/
def FieldClass.isCharField : FieldClass → Bool
  | .charField => true
  | .emailField => true
  | .urlField => true
  | _ => false

/-- isinstance(field, models.TextField). -/
def FieldClass.isTextField : FieldClass → Bool
  | .textField => true
  | _ => false

/-- isinstance(field, models.DateTimeField). -/
def FieldClass.isDateTimeField : FieldClass → Bool
  | .dateTimeField => true
  | _ => false

/-- isinstance(field, models.DateField).  `DateTimeField` subclasses
`DateField` in Django, so it satisfies this test too (the source checks
`DateTimeField` first, so only plain date fields reach the date branch). -/
def FieldClass.isDateField : FieldClass → Bool
  | .dateField => true
  | .dateTimeField => true
  | _ => false

/-- isinstance(field, models.BooleanField). -/
def FieldClass.isBooleanField : FieldClass → Bool
  | .booleanField => true
  | _ => false

/-- isinstance(field, (models.IntegerField, models.SmallIntegerField)); note
`SmallIntegerField` subclasses `IntegerField` in Django. -/
def FieldClass.isIntegerField : FieldClass → Bool
  | .integerField => true
  | .smallIntegerField => true
  | _ => false

/-- isinstance(field, models.DecimalField). -/
def FieldClass.isDecimalField : FieldClass → Bool
  | .decimalField => true
  | _ => false

/-- isinstance(field, models.URLField). -/
def FieldClass.isURLField : FieldClass → Bool
  | .urlField => true
  | _ => false

/-- isinstance(field, ForeignKey). -/
def FieldClass.isForeignKey : FieldClass → Bool
  | .foreignKey => true
  | _ => false

/-- isinstance(field, models.EmailField). -/
def FieldClass.isEmailField : FieldClass → Bool
  | .emailField => true
  | _ => false

/-- descriptor of a Django model field: its declared name, its class, and the
attributes the command reads (`max_length`, `max_digits`, `decimal_places`,
the label of `field.remote_field.model` for relationship fields, whether the
relationship is required, and the default the model declares, which the bare
`model()` constructor puts on the instance attribute). -/
structure Field where
  name : String
  cls : FieldClass
  max_length : Option Nat
  max_digits : Int
  decimal_places : Int
  relatedModel : String
  required : Bool
  declaredDefault : Option Value
deriving DecidableEq

/-- descriptor of a Django model: `model._meta.app_label`,
`model._meta.model_name`, `model._meta.abstract`, the concrete fields
(`model._meta.fields`) and the many-to-many fields
(`model._meta.many_to_many`). -/
structure ModelDescr where
  app_label : String
  model_name : String
  abstract : Bool
  fields : List Field
  many_to_many : List Field
deriving DecidableEq

/-- label string used by the source everywhere a model is keyed:
an f-string app_label.model_name. -/
def modelLabel (m : ModelDescr) : String :=
  m.app_label ++ "." ++ m.model_name

/-- labels of a list of models. -/
def labelsOf (l : List ModelDescr) : List String :=
  l.map modelLabel

/-- oracle for the `faker` instances used by the command.  Each component is
one generator the source calls; a run observes fixed outputs, so properties
about the command are quantified over this structure.  `pydecimal` returns
`none` when the underlying library call raises (e.g. for a negative
`left_digits`); the other generators are modelled as total. -/
structure Faker where
  email : String
  phone_number : String
  personName : String
  text : Nat → String
  textDefault : String
  date_time_this_decade : Nat
  date_this_decade : Nat
  boolean : Bool
  random_int : Int → Int → Int
  pydecimal : Int → Int → Bool → Option PyDecimal
  url : String

/-- oracle for the `random` module: the index drawn by `random.choice`, the
position that ends up first under `order_by` with a random ordering, whether
that store query raises for a given model label, the output of
`random.randint`, and the subset drawn by `random.sample`. -/
structure Rand where
  choice : Nat
  dbShuffleIdx : Nat
  dbRaises : String → Bool
  randint : Int → Int → Int
  sample : List Nat → Nat → List Nat

/-- state visible to `generate_field_value`: the creation ledger
`self.created_objects` (model label to ids of instances created this run), the
persisted store contents per model label, and the clock values returned by
`timezone.now()` and `timezone.now().date()`. -/
structure World where
  created_objects : List (String × List Nat)
  db : String → List Nat
  now : Nat
  today : Nat

/-- Python str.lower(), over the ASCII field names the command compares. -/
def pyLower (s : String) : String := ⟨s.data.map Char.toLower⟩

/-- Python str.endswith(t): `t` is a suffix of `s`. -/
def pyEndsWith (s t : String) : Bool := t.data.isSuffixOf s.data

/-- result of one `generate_field_value` call: the value returned (`none` is
Python `None`), whether the persisted store was queried, and whether an
`except` clause inside the method fired. -/
structure GenResult where
  val : Option Value
  dbQueried : Bool
  exceptionCaught : Bool
deriving DecidableEq

/-- Command.generate_field_value (lines 136-206).  The `if`/`elif` chain is
reproduced branch for branch, including the Python `isinstance` semantics
recorded in the `FieldClass.is*` functions (notably: `EmailField` and
`URLField` are `CharField` subclasses, so they take the first branch and the
two dedicated branches further down are unreachable).  The final `return None`
of line 206 is the last case. -/
def generate_field_value (faker : Faker) (rnd : Rand) (w : World) (field : Field) : GenResult :=
  if field.cls.isCharField then
    let max_length := field.max_length.getD 100
    if pyEndsWith (pyLower field.name) "email" then
      ⟨some (.str faker.email), false, false⟩
    else if pyEndsWith (pyLower field.name) "phone" then
      ⟨some (.str (faker.phone_number.take max_length)), false, false⟩
    else if pyEndsWith (pyLower field.name) "name" then
      ⟨some (.str (faker.personName.take max_length)), false, false⟩
    else if pyLower field.name = "language_code" then
      ⟨some (.str "en"), false, false⟩
    else
      ⟨some (.str ((faker.text max_length).take max_length)), false, false⟩
  else if field.cls.isTextField then
    ⟨some (.str faker.textDefault), false, false⟩
  else if field.cls.isDateTimeField then
    if field.name = "created" ∨ field.name = "modified" ∨ field.name = "creation_date" then
      ⟨some (.datetimeV w.now), false, false⟩
    else
      ⟨some (.datetimeV faker.date_time_this_decade), false, false⟩
  else if field.cls.isDateField then
    if field.name = "created" ∨ field.name = "modified" ∨ field.name = "creation_date" then
      ⟨some (.dateV w.today), false, false⟩
    else
      ⟨some (.dateV faker.date_this_decade), false, false⟩
  else if field.cls.isBooleanField then
    ⟨some (.boolV faker.boolean), false, false⟩
  else if field.cls.isIntegerField then
    if field.name = "index_number" then
      ⟨some (.intV (rnd.randint 1 100)), false, false⟩
    else
      ⟨some (.intV (faker.random_int 0 1000)), false, false⟩
  else if field.cls.isDecimalField then
    match faker.pydecimal (field.max_digits - field.decimal_places) field.decimal_places true with
    | some d => ⟨some (.decV d), false, false⟩
    | none => ⟨none, false, true⟩
  else if field.cls.isURLField then
    ⟨some (.str faker.url), false, false⟩
  else if field.cls.isForeignKey then
    let related_model_name := field.relatedModel
    let related_objects := (w.created_objects.lookup related_model_name).getD []
    if related_objects.isEmpty then
      if rnd.dbRaises related_model_name then
        ⟨none, true, true⟩
      else
        ⟨((w.db related_model_name).get? (rnd.dbShuffleIdx % (w.db related_model_name).length)).map .obj,
          true, false⟩
    else
      ⟨(related_objects.get? (rnd.choice % related_objects.length)).map .obj, false, false⟩
  else if field.cls.isEmailField then
    ⟨some (.str faker.email), false, false⟩
  else
    ⟨none, false, false⟩

/-- instance of a model: the attribute map built by `create_model_instance`
(attribute name to assigned value; `none` is Python `None`). -/
abbrev PyInstance := List (String × Option Value)

/-- Command.create_model_instance (lines 208-219).  `model()` leaves each
attribute at the field's declared default; the loop then calls `setattr`
unconditionally with the generated value for every field other than `id` and
`pk`. -/
def create_model_instance (faker : Faker) (rnd : Rand) (w : World) (model : ModelDescr) : PyInstance :=
  model.fields.map (fun field =>
    if field.name = "id" ∨ field.name = "pk" then
      (field.name, field.declaredDefault)
    else
      (field.name, (generate_field_value faker rnd w field).val))

/-- oracle for the fallible persistence steps of the per-instance loop of
`generate_data_for_model`: whether `create_model_instance` raises at attempt
`i`, and whether `obj.save()` raises at attempt `i`. -/
structure PersistOracle where
  createFails : Nat → Bool
  saveFails : Nat → Bool

/-- per-instance loop of Command.generate_data_for_model (lines 118-127): one
hundred attempts; an attempt whose construction or save raises is logged and
skipped (`continue`); an attempt is appended to `created_objects` only after
`obj.save()` has returned.  Each kept attempt is the pair of its index and the
constructed instance. -/
def createdInstances (o : PersistOracle) (faker : Faker) (rnd : Rand) (w : World)
    (model : ModelDescr) : List (Nat × PyInstance) :=
  (List.range 100).filterMap (fun i =>
    if o.createFails i then
      none
    else
      let obj := create_model_instance faker rnd w model
      if o.saveFails i then none else some (i, obj))

/-- one many-to-many write issued by `handle_many_to_many_relations`:
`getattr(obj, field.name).set(related)` for instance `objId` of model
`sourceLabel`. -/
structure M2MWrite where
  sourceLabel : String
  objId : Nat
  fieldName : String
  related : List Nat
deriving DecidableEq

/-- Command.handle_many_to_many_relations (lines 221-237): for every
many-to-many field of the model, look up the target's ledger entry; when it is
empty, `continue`; otherwise, for every ledger instance of the model itself,
draw `random.randint(1, min(5, len(related)))` related instances with
`random.sample` and set the field. -/
def handle_many_to_many_relations (rnd : Rand) (ledger : List (String × List Nat))
    (model : ModelDescr) : List M2MWrite :=
  model.many_to_many.flatMap (fun field =>
    let related_objects := (ledger.lookup field.relatedModel).getD []
    if related_objects.isEmpty then
      []
    else
      ((ledger.lookup (modelLabel model)).getD []).map (fun objId =>
        let num_relations := (rnd.randint 1 (min 5 (Int.ofNat related_objects.length))).toNat
        ⟨modelLabel model, objId, field.name, rnd.sample related_objects num_relations⟩))

/-- observable event of the per-model loop of `handle`: completion of
`generate_data_for_model` for a model, or one many-to-many attachment issued
by `handle_many_to_many_relations`. -/
inductive Event where
  | gen (label : String)
  | attach (sourceLabel : String) (objId : Nat) (fieldName : String)
deriving DecidableEq

/-- configuration of one run: the oracles for faker, random, persistence, the
persisted store, the clock, and the index of the bootstrap operation that
raises (`none` when bootstrap succeeds). -/
structure RunCfg where
  faker : Faker
  rnd : Rand
  persist : PersistOracle
  db : String → List Nat
  now : Nat
  today : Nat
  authFailAt : Option Nat

/-- mutable state of Command.handle's per-model loop: the creation ledger
`self.created_objects` (instance ids per model label), `self.processed_models`,
`self.skipped_models`, and the trace of observable events in order. -/
structure LoopState where
  created_objects : List (String × List Nat)
  processed : List String
  skipped : List String
  trace : List Event

/-- assignment to a Python dict key: any earlier binding is dropped and the new
one recorded (lookup afterwards yields the new value). -/
def setKey (l : List (String × List Nat)) (k : String) (v : List Nat) :
    List (String × List Nat) :=
  (k, v) :: l.filter (fun p => p.1 ≠ k)

/-- world visible to field generation while the loop is in state `st`. -/
def worldOf (cfg : RunCfg) (st : LoopState) : World :=
  ⟨st.created_objects, cfg.db, cfg.now, cfg.today⟩

/-- Command.generate_data_for_model (lines 105-134) followed by
Command.handle_many_to_many_relations, i.e. the body of one iteration of the
loop at lines 57-67: an abstract model is recorded as skipped and gets no
ledger entry; otherwise the hundred-attempt loop runs against the current
ledger, the model is recorded as processed and its ledger entry assigned.  In
both cases the many-to-many pass then runs against the updated ledger, and the
trace records the completed generation followed by each attachment. -/
def stepModel (cfg : RunCfg) (st : LoopState) (model : ModelDescr) : LoopState :=
  let label := modelLabel model
  let st1 :=
    if model.abstract then
      { st with skipped := st.skipped ++ [label ++ " (abstract)"] }
    else
      let objs := createdInstances cfg.persist cfg.faker cfg.rnd (worldOf cfg st) model
      { st with
        created_objects := setKey st.created_objects label (objs.map Prod.fst)
        processed := st.processed ++ [label] }
  let writes := handle_many_to_many_relations cfg.rnd st1.created_objects model
  { st1 with
    trace := st1.trace ++ Event.gen label :: writes.map (fun wr => Event.attach wr.sourceLabel wr.objId wr.fieldName) }

/-- events contributed by the rest of the loop when started in state `st`:
each model contributes its generation event followed by its attachment
events, computed against the ledger as it stands when that model is reached. -/
def loopSegs (cfg : RunCfg) (st : LoopState) : List ModelDescr → List Event
  | [] => []
  | m :: rest =>
    (Event.gen (modelLabel m) ::
      (handle_many_to_many_relations cfg.rnd (stepModel cfg st m).created_objects m).map
        (fun wr => Event.attach wr.sourceLabel wr.objId wr.fieldName)) ++
    loopSegs cfg (stepModel cfg st m) rest

/-- state of the authentication store: the names of the existing permission
groups and the usernames of the existing administrative (superuser)
accounts. -/
structure AuthState where
  groups : List String
  superusers : List String
deriving DecidableEq

/-- Group.objects.get_or_create(name=name): create the group only when no
group of that name exists. -/
def get_or_create_group (s : AuthState) (name : String) : AuthState :=
  if s.groups.contains name then s else { s with groups := s.groups ++ [name] }

/-- persistence operations performed by `create_base_auth_models`, in program
order: one get-or-create per fixed group name, then the superuser
check-and-create. -/
inductive AuthOp where
  | group (name : String)
  | ensureSuperuser

/-- effect of one bootstrap operation on the authentication store.
`ensureSuperuser` models lines 97-100: create the admin account only when no
superuser exists. -/
def applyAuthOp : AuthOp → AuthState → AuthState
  | .group g, s => get_or_create_group s g
  | .ensureSuperuser, s =>
    if s.superusers.isEmpty then { s with superusers := s.superusers ++ ["admin"] } else s

/-- operations of Command.create_base_auth_models in order (lines 92-100). -/
def authOps : List AuthOp :=
  [.group "managers", .group "operators", .group "superoperators", .ensureSuperuser]

/-- run of the bootstrap operation list under a failure oracle: when operation
`k` raises, the surrounding `except` (lines 102-103) catches it, the earlier
effects stay in place, and the flag records that the error was logged. -/
def runAuthOps (failAt : Option Nat) : Nat → List AuthOp → AuthState → AuthState × Bool
  | _, [], s => (s, false)
  | k, op :: rest, s =>
    if failAt = some k then (s, true)
    else runAuthOps failAt (k + 1) rest (applyAuthOp op s)

/-- Command.create_base_auth_models (lines 88-103): the fixed operation list
under the failure oracle; the second component is true exactly when a failure
was caught and logged. -/
def create_base_auth_models (failAt : Option Nat) (s : AuthState) : AuthState × Bool :=
  runAuthOps failAt 0 authOps s

/-- value stored in the parsed-options dict under a key: argparse stores
Python `None` for an argument that was not supplied (the `--exclude` argument
declares no default), and a list of strings when it was. -/
inductive PyVal where
  | noneVal
  | strList (l : List String)
deriving DecidableEq

/-- Python dict.get(key, default): the stored value when the key is present —
even when that stored value is `None` — and the default only when the key is
absent. -/
def dictGet (d : List (String × PyVal)) (k : String) (dflt : PyVal) : PyVal :=
  (d.lookup k).getD dflt

/-- Python membership test `x not in v`: raises `TypeError` when `v` is
`None`, since `None` is not iterable. -/
def pyNotIn (x : String) (v : PyVal) : Except String Bool :=
  match v with
  | .noneVal => .error "TypeError: argument of type NoneType is not iterable"
  | .strList l => .ok (!l.contains x)

/-- list comprehension of lines 47-51: keep a model when its label is not in
`excluded_models` and its app label is not `auth`; evaluating the membership
test raises when `excluded_models` is `None`, and that exception aborts the
whole comprehension. -/
def modelsToProcess (excluded : PyVal) : List ModelDescr → Except String (List ModelDescr)
  | [] => .ok []
  | m :: rest => do
    let keep ← pyNotIn (modelLabel m) excluded
    let tail ← modelsToProcess excluded rest
    pure (if keep ∧ m.app_label ≠ "auth" then m :: tail else tail)

/-- required single-valued relationship targets of a model: the labels of the
related models of its required foreign-key fields. -/
def requiredTargets (m : ModelDescr) : List String :=
  (m.fields.filter (fun f => f.cls.isForeignKey && f.required)).map Field.relatedModel

/-- readiness of a model in a Kahn-style traversal: every required target that
lies inside the processed set has already been emitted. -/
def readyIn (S done : List ModelDescr) (m : ModelDescr) : Bool :=
  (requiredTargets m).all (fun d => !(labelsOf S).contains d || (labelsOf done).contains d)

/-- fuelled Kahn loop: emit the first pending model whose in-set required
targets were all emitted already; when no pending model is ready (a dependency
cycle) or the fuel runs out, append the remainder in input order (the
specification leaves the cyclic case undefined). -/
def topoGo (S : List ModelDescr) : Nat → List ModelDescr → List ModelDescr → List ModelDescr
  | 0, pending, done => done ++ pending
  | Nat.succ n, pending, done =>
    match pending.find? (readyIn S done) with
    | none => done ++ pending
    | some m => topoGo S n (pending.erase m) (done ++ [m])

/-- Modelled from the spec: `Command.handle` calls
`self.sort_models_by_dependencies(models_to_process)` at line 54, but that
method is defined nowhere in the repository's source; section 4.1 of the
specification describes it — build a directed graph with an edge R → M for
each required single-valued relationship of M to a model R in the set, and
perform a topological traversal, free ordering for models whose targets lie
outside the set, undefined ordering on a cycle. -/
def sort_models_by_dependencies (S : List ModelDescr) : List ModelDescr :=
  topoGo S S.length S []

/-- outcome of one Command.handle run: the final authentication store, whether
a bootstrap failure was logged, the final creation ledger, the processed and
skipped model labels, the event trace of the per-model loop, and the error
caught by the top-level handler of lines 82-86 when one escaped. -/
structure HandleOutcome where
  auth : AuthState
  authLogged : Bool
  ledger : List (String × List Nat)
  processed : List String
  skipped : List String
  trace : List Event
  topError : Option String
deriving DecidableEq

/-- initial loop state of a run (`__init__`, lines 21-26). -/
def initState : LoopState := ⟨[], [], [], []⟩

/-- Command.handle (lines 36-86): read the exclusion option with `dict.get`,
bootstrap the authentication models (its own `except` keeps any failure
local), filter the discovered models, sort them, and run the per-model loop;
an exception escaping before the loop — in particular the `TypeError` from
testing membership in `None` — is caught only by the top-level handler, which
logs it and leaves the run with no generated instances. -/
def handle (cfg : RunCfg) (options : List (String × PyVal)) (allModels : List ModelDescr)
    (auth0 : AuthState) : HandleOutcome :=
  let excluded_models := dictGet options "exclude" (.strList [])
  let auth1 := create_base_auth_models cfg.authFailAt auth0
  match modelsToProcess excluded_models allModels with
  | .error e => ⟨auth1.1, auth1.2, [], [], [], [], some e⟩
  | .ok ms =>
    let sorted := sort_models_by_dependencies ms
    let final := sorted.foldl (stepModel cfg) initState
    ⟨auth1.1, auth1.2, final.created_objects, final.processed, final.skipped, final.trace, none⟩

/-- precedence relation induced by required single-valued relationships inside
a model set: `Prec S R M` holds when both models lie in the set and `M`
declares a required relationship whose target is `R`, so `R` must be emitted
before `M`. -/
def Prec (S : List ModelDescr) (R M : ModelDescr) : Prop :=
  R ∈ S ∧ M ∈ S ∧ modelLabel R ∈ requiredTargets M

/-- absence of relationship-dependency cycles in a model set: no model reaches
itself through a nonempty chain of required-relationship precedences. -/
def NoDepCycles (S : List ModelDescr) : Prop :=
  ∀ m, ¬ Relation.TransGen (Prec S) m m

/-- ordering property of an emitted sequence: whenever a model appears, every
required target of it that belongs to the set already appeared earlier. -/
def GoodOrd (S out : List ModelDescr) : Prop :=
  ∀ pre M post, out = pre ++ M :: post →
    ∀ d ∈ requiredTargets M, d ∈ labelsOf S → d ∈ labelsOf pre

/-- recognition predicate for the `isinstance` chain of
`generate_field_value`: a field class outside all the tested classes falls
through every branch. -/
def recognizedClass (c : FieldClass) : Bool :=
  c.isCharField || c.isTextField || c.isDateTimeField || c.isDateField ||
  c.isBooleanField || c.isIntegerField || c.isDecimalField || c.isURLField ||
  c.isForeignKey || c.isEmailField

/-- shape test for a synthetic email address: one `@` separating a nonempty
user part from a nonempty domain part that contains a dot. -/
def emailShape (s : String) : Bool :=
  match s.data.splitOn '@' with
  | [u, d] => !u.isEmpty && (!d.isEmpty && d.contains '.')
  | _ => false

/-- contract of the fake-value source's decimal generator (specification
section 6): a positive decimal with at most `left` integer digits and exactly
`right` fractional digits, when the call returns at all. -/
def PydecimalSpec (faker : Faker) : Prop :=
  ∀ left right d, faker.pydecimal left right true = some d →
    d.negative = false ∧ d.intDigits.length ≤ left.toNat ∧
      d.fracDigits.length = right.toNat

/-- property claimed of a run trace: every many-to-many attachment happens
only after every per-model generation in the trace has finished, i.e. every
generation event precedes every attachment event. -/
def M2MAfterAllGens (tr : List Event) : Prop :=
  ∀ i j s o f l, tr.get? i = some (Event.attach s o f) →
    tr.get? j = some (Event.gen l) → j < i

/-- concrete faker oracle for witnesses: fixed outputs, decimal generator
returning no integer digits and `right` zero fractional digits. -/
def faker0 : Faker :=
  ⟨"a@b.c", "5550100", "Jo", fun _ => "lorem", "lorem ipsum", 3, 4, true,
    fun a _ => a, fun _ right _ => some ⟨false, [], List.replicate right.toNat 0⟩,
    "http://x.example"⟩

/-- concrete randomness oracle for witnesses: `choice` and the store shuffle
pick index 0, no store query raises, `randint` returns its lower bound, and
`sample` takes a leading segment. -/
def rand0 : Rand :=
  ⟨0, 0, fun _ => false, fun a _ => a, fun l k => l.take k⟩

/-- concrete persistence oracle for witnesses: nothing fails. -/
def persist0 : PersistOracle := ⟨fun _ => false, fun _ => false⟩

/-- concrete empty world for witnesses. -/
def world0 : World := ⟨[], fun _ => [], 0, 0⟩

/-- concrete unrecognized-class field with a declared default, for the C4
counterexample: e.g. a `JSONField` with `default=dict`-style value. -/
def fieldC4 : Field := ⟨"payload", .otherField, none, 0, 0, "", false, some (.str "dflt")⟩

/-- concrete model with the single unrecognized field above. -/
def modelC4 : ModelDescr := ⟨"app", "m", false, [fieldC4], []⟩

/-- concrete email-kind field whose name does not end in `email`. -/
def fieldC5 : Field := ⟨"contact", .emailField, none, 0, 0, "", false, none⟩

/-- concrete short-text field named `user_email` with max length 30. -/
def fieldC6 : Field := ⟨"user_email", .charField, some 30, 0, 0, "", false, none⟩

/-- faker whose synthetic email is 34 characters long — a shape the email
provider of the faker library genuinely produces. -/
def fakerC6 : Faker := { faker0 with email := "christopher.montgomery@example.org" }

/-- concrete many-to-many field of model `app.a` targeting `app.a` itself. -/
def m2mFieldA : Field := ⟨"peers", .manyToManyField, none, 0, 0, "app.a", false, none⟩

/-- concrete model `app.a` carrying the self-targeting many-to-many field. -/
def modelA : ModelDescr := ⟨"app", "a", false, [], [m2mFieldA]⟩

/-- concrete model `app.b` with no fields. -/
def modelB : ModelDescr := ⟨"app", "b", false, [], []⟩

/-- concrete run configuration for counterexamples and witnesses. -/
def cfg0 : RunCfg := ⟨faker0, rand0, persist0, fun _ => [], 0, 0, none⟩

/-- trace of the run of `handle` on the two concrete models above with no
options supplied as an empty exclusion list. -/
def traceC3 : List Event := (handle cfg0 [("exclude", .strList [])] [modelA, modelB] ⟨[], []⟩).trace

/-- concrete dependency-free model `app.r` for the C1 witness. -/
def modelR : ModelDescr := ⟨"app", "r", false, [], []⟩

/-- concrete model `app.needsr` with a required single-valued relationship to
`app.r`, for the C1 witness. -/
def modelNeeds : ModelDescr :=
  ⟨"app", "needsr", false, [⟨"owner", .foreignKey, none, 0, 0, "app.r", true, none⟩], []⟩

/-- C8: the creation ledger entry for a model contains only instances whose
persistence operation completed successfully — an attempt whose construction
or save raised is never appended to the created list. -/
theorem ledger_only_contains_saved (o : PersistOracle) (faker : Faker) (rnd : Rand)
    (w : World) (model : ModelDescr) (i : Nat) (obj : PyInstance)
    (h : (i, obj) ∈ createdInstances o faker rnd w model) :
    o.createFails i = false ∧ o.saveFails i = false := by
  unfold createdInstances at h
  rw [List.mem_filterMap] at h
  obtain ⟨j, _, hmap⟩ := h
  by_cases hc : o.createFails j
  · simp [hc] at hmap
  · by_cases hs : o.saveFails j
    · simp [hc, hs] at hmap
    · simp [hc, hs] at hmap
      obtain ⟨hj, -⟩ := hmap
      subst hj
      exact ⟨by simpa using hc, by simpa using hs⟩

/-- witness for C8: under an oracle whose save succeeds only at attempt 0, the
membership of attempt 0 in the ledger entry yields successful create and
save. -/
theorem ledger_only_contains_saved_witness :
    let o : PersistOracle := ⟨fun _ => false, fun i => decide (i ≠ 0)⟩
    o.createFails 0 = false ∧ o.saveFails 0 = false :=
  ledger_only_contains_saved ⟨fun _ => false, fun i => decide (i ≠ 0)⟩
    faker0 rand0 world0 modelB 0 [] (by decide)

/-- C7: the relationship resolver returns no value and hits no exception when
the target has neither same-run nor persisted instances, and when same-run
instances exist it picks one of them without querying the store. -/
theorem fk_resolver_safe (faker : Faker) (rnd : Rand) (w : World) (field : Field)
    (hcls : field.cls = .foreignKey) :
    ((w.created_objects.lookup field.relatedModel).getD [] = [] →
      w.db field.relatedModel = [] →
      rnd.dbRaises field.relatedModel = false →
      generate_field_value faker rnd w field = ⟨none, true, false⟩) ∧
    (∀ l, w.created_objects.lookup field.relatedModel = some l → l ≠ [] →
      (generate_field_value faker rnd w field).dbQueried = false ∧
      ∃ o ∈ l, (generate_field_value faker rnd w field).val = some (Value.obj o)) := by
  constructor
  · intro h1 h2 h3
    simp [generate_field_value, hcls, FieldClass.isCharField, FieldClass.isTextField,
      FieldClass.isDateTimeField, FieldClass.isDateField, FieldClass.isBooleanField,
      FieldClass.isIntegerField, FieldClass.isDecimalField, FieldClass.isURLField,
      FieldClass.isForeignKey, h1, h2, h3]
  · intro l hl hne
    have hlen : 0 < l.length := List.length_pos.mpr hne
    have hidx : rnd.choice % l.length < l.length := Nat.mod_lt _ hlen
    have hres : generate_field_value faker rnd w field =
        ⟨(l.get? (rnd.choice % l.length)).map Value.obj, false, false⟩ := by
      simp [generate_field_value, hcls, FieldClass.isCharField, FieldClass.isTextField,
        FieldClass.isDateTimeField, FieldClass.isDateField, FieldClass.isBooleanField,
        FieldClass.isIntegerField, FieldClass.isDecimalField, FieldClass.isURLField,
        FieldClass.isForeignKey, hl, List.isEmpty_iff, hne]
    refine ⟨by rw [hres], ⟨l.get ⟨rnd.choice % l.length, hidx⟩, List.get_mem l _ hidx, ?_⟩⟩
    rw [hres]
    simp [List.get?_eq_get hidx]

/-- witness for C7: the resolver picks the single same-run instance 7 of model
`app.r` without querying the store, and on an empty world returns no value. -/
theorem fk_resolver_safe_witness :
    let fk : Field := ⟨"owner", .foreignKey, none, 0, 0, "app.r", true, none⟩
    let w : World := ⟨[("app.r", [7])], fun _ => [], 0, 0⟩
    generate_field_value faker0 rand0 world0 fk = ⟨none, true, false⟩ ∧
    ((generate_field_value faker0 rand0 w fk).dbQueried = false ∧
      ∃ o ∈ [7], (generate_field_value faker0 rand0 w fk).val = some (Value.obj o)) := by
  refine ⟨?_, ?_⟩
  · exact (fk_resolver_safe faker0 rand0 world0
      ⟨"owner", .foreignKey, none, 0, 0, "app.r", true, none⟩ rfl).1 rfl rfl rfl
  · exact (fk_resolver_safe faker0 rand0 ⟨[("app.r", [7])], fun _ => [], 0, 0⟩
      ⟨"owner", .foreignKey, none, 0, 0, "app.r", true, none⟩ rfl).2 [7] rfl (by decide)

/-- C9: for a decimal field with `max_digits` 5 and `decimal_places` 2, the
synthesizer requests a positive decimal with 3 integer digits and 2 fractional
digits, so under the fake-value source's contract the returned value is
non-negative with at most 3 integer digits and exactly 2 fractional digits. -/
theorem decimal_field_digit_bounds (faker : Faker) (rnd : Rand) (w : World) (field : Field)
    (hcls : field.cls = .decimalField) (hmd : field.max_digits = 5)
    (hdp : field.decimal_places = 2) (hspec : PydecimalSpec faker)
    (hok : faker.pydecimal 3 2 true ≠ none) :
    ∃ d, (generate_field_value faker rnd w field).val = some (Value.decV d) ∧
      d.negative = false ∧ d.intDigits.length ≤ 3 ∧ d.fracDigits.length = 2 := by
  cases hpd : faker.pydecimal 3 2 true with
  | none => exact absurd hpd hok
  | some d =>
    have hprops := hspec 3 2 d hpd
    refine ⟨d, ?_, hprops.1, by simpa using hprops.2.1, by simpa using hprops.2.2⟩
    simp [generate_field_value, hcls, FieldClass.isCharField, FieldClass.isTextField,
      FieldClass.isDateTimeField, FieldClass.isDateField, FieldClass.isBooleanField,
      FieldClass.isIntegerField, FieldClass.isDecimalField, hmd, hdp,
      show (5 : Int) - 2 = 3 by norm_num, hpd]

/-- witness for C9: the concrete faker oracle satisfies the decimal contract
and yields a compliant value for a `max_digits=5, decimal_places=2` field. -/
theorem decimal_field_digit_bounds_witness :
    ∃ d, (generate_field_value faker0 rand0 world0
        ⟨"price", .decimalField, none, 5, 2, "", false, none⟩).val = some (Value.decV d) ∧
      d.negative = false ∧ d.intDigits.length ≤ 3 ∧ d.fracDigits.length = 2 :=
  decimal_field_digit_bounds faker0 rand0 world0
    ⟨"price", .decimalField, none, 5, 2, "", false, none⟩ rfl rfl rfl
    (fun left right d h => by
      simp only [faker0, Option.some.injEq] at h
      subst h
      exact ⟨rfl, by simp, by simp⟩)
    (by simp [faker0])

/-- counterexample for C4: on a model whose single field has an unrecognized
class and a declared default, the built instance carries `None` for that
field — the default was overwritten by the unconditional `setattr`, contrary
to the claim that the field is left at its default. -/
theorem unrecognized_default_overwritten_cx :
    create_model_instance faker0 rand0 world0 modelC4 = [("payload", none)] ∧
    fieldC4.declaredDefault = some (Value.str "dflt") ∧
    (none : Option Value) ≠ some (Value.str "dflt") := by
  refine ⟨rfl, rfl, by decide⟩

/-- C4 as amended: for a field whose class is not among the recognized kinds,
the synthesizer returns no value, and the instance builder assigns that no
value (Python `None`) to the field, overwriting any declared default. -/
theorem unrecognized_field_assigned_none (faker : Faker) (rnd : Rand) (w : World)
    (model : ModelDescr) (field : Field) (hmem : field ∈ model.fields)
    (hcls : recognizedClass field.cls = false)
    (hid : ¬(field.name = "id" ∨ field.name = "pk")) :
    (generate_field_value faker rnd w field).val = none ∧
    (field.name, (none : Option Value)) ∈ create_model_instance faker rnd w model := by
  simp only [recognizedClass, Bool.or_eq_false_iff] at hcls
  obtain ⟨⟨⟨⟨⟨⟨⟨⟨⟨h1, h2⟩, h3⟩, h4⟩, h5⟩, h6⟩, h7⟩, h8⟩, h9⟩, h10⟩ := hcls
  have hval : (generate_field_value faker rnd w field).val = none := by
    simp [generate_field_value, h1, h2, h3, h4, h5, h6, h7, h8, h9, h10]
  refine ⟨hval, ?_⟩
  refine List.mem_map.mpr ⟨field, hmem, ?_⟩
  simp [hid, hval]

/-- witness for C4 as amended: the concrete unrecognized field of `modelC4`
ends up with `None` assigned. -/
theorem unrecognized_field_assigned_none_witness :
    (generate_field_value faker0 rand0 world0 fieldC4).val = none ∧
    (fieldC4.name, (none : Option Value)) ∈ create_model_instance faker0 rand0 world0 modelC4 :=
  unrecognized_field_assigned_none faker0 rand0 world0 modelC4 fieldC4
    (by decide) (by decide) (by decide)

/-- C5, behaviour at the failing input: an email-kind field named `contact`
takes the short-text branch, because Django's `EmailField` subclasses
`CharField` and the `isinstance` chain tests `CharField` first; the value is
synthetic sentence text, not a synthetic email address, and the dedicated
email branch of line 199 is unreachable. -/
theorem email_field_named_contact_gets_text (faker : Faker) (rnd : Rand) (w : World) :
    generate_field_value faker rnd w fieldC5 =
      ⟨some (Value.str ((faker.text 100).take 100)), false, false⟩ := rfl

/-- counterexample for C6: with a faker whose synthetic email address is 34
characters long, the synthesizer for the short-text field `user_email` with
max length 30 returns that address untruncated — an email-shaped value of
length 34, contradicting the claimed bound of 30. -/
theorem user_email_length_cx :
    (generate_field_value fakerC6 rand0 world0 fieldC6).val =
      some (Value.str "christopher.montgomery@example.org") ∧
    emailShape "christopher.montgomery@example.org" = true ∧
    ¬("christopher.montgomery@example.org".length ≤ 30) := by
  refine ⟨rfl, by decide, by decide⟩

/-- C6 as amended: for a short-text field named `user_email` with max length
30 the synthesizer returns the faker's email address unmodified — email-shaped
whenever the faker's output is, but not truncated, so its length is bounded
only by the faker's output, not by 30. -/
theorem user_email_shape_untruncated (faker : Faker) (rnd : Rand) (w : World) (field : Field)
    (hname : field.name = "user_email") (hcls : field.cls = .charField)
    (hlen : field.max_length = some 30) (hfake : emailShape faker.email = true) :
    (generate_field_value faker rnd w field).val = some (Value.str faker.email) ∧
    ∃ s, (generate_field_value faker rnd w field).val = some (Value.str s) ∧
      emailShape s = true ∧ s.length = faker.email.length := by
  have hv : (generate_field_value faker rnd w field).val = some (Value.str faker.email) := by
    simp [generate_field_value, hcls, FieldClass.isCharField, hname,
      show pyEndsWith (pyLower "user_email") "email" = true from rfl]
  exact ⟨hv, faker.email, hv, hfake, rfl⟩

/-- witness for C6 as amended: the default concrete faker has an email-shaped
address, and the synthesizer returns exactly it. -/
theorem user_email_shape_untruncated_witness :
    (generate_field_value faker0 rand0 world0 fieldC6).val = some (Value.str faker0.email) ∧
    ∃ s, (generate_field_value faker0 rand0 world0 fieldC6).val = some (Value.str s) ∧
      emailShape s = true ∧ s.length = faker0.email.length :=
  user_email_shape_untruncated faker0 rand0 world0 fieldC6 rfl rfl rfl (by decide)

/-- C2: when the command is invoked without `--exclude`, the options dict maps
the key to `None`, `dict.get` with an empty-list default returns that stored
`None`, the membership test of the model-filtering comprehension raises
`TypeError`, only the top-level handler catches it, and no model instances are
generated in that run. -/
theorem missing_exclude_aborts_run (cfg : RunCfg) (options : List (String × PyVal))
    (allModels : List ModelDescr) (auth0 : AuthState)
    (hopt : options.lookup "exclude" = some PyVal.noneVal) (hne : allModels ≠ []) :
    (handle cfg options allModels auth0).topError =
      some "TypeError: argument of type NoneType is not iterable" ∧
    (handle cfg options allModels auth0).ledger = [] ∧
    (handle cfg options allModels auth0).processed = [] ∧
    (handle cfg options allModels auth0).trace = [] := by
  obtain ⟨m, rest, rfl⟩ := List.exists_cons_of_ne_nil hne
  have hget : dictGet options "exclude" (.strList []) = .noneVal := by
    simp [dictGet, hopt]
  have hfil : modelsToProcess PyVal.noneVal (m :: rest) =
      .error "TypeError: argument of type NoneType is not iterable" := rfl
  simp [handle, hget, hfil]

/-- witness for C2: a run over one model with the stored option value `None`
ends in the top-level `TypeError` with an empty ledger and trace. -/
theorem missing_exclude_aborts_run_witness :
    (handle cfg0 [("exclude", PyVal.noneVal)] [modelB] ⟨[], []⟩).topError =
      some "TypeError: argument of type NoneType is not iterable" ∧
    (handle cfg0 [("exclude", PyVal.noneVal)] [modelB] ⟨[], []⟩).ledger = [] ∧
    (handle cfg0 [("exclude", PyVal.noneVal)] [modelB] ⟨[], []⟩).processed = [] ∧
    (handle cfg0 [("exclude", PyVal.noneVal)] [modelB] ⟨[], []⟩).trace = [] :=
  missing_exclude_aborts_run cfg0 [("exclude", PyVal.noneVal)] [modelB] ⟨[], []⟩ rfl
    (by decide)

/-- group creation makes the group present. -/
theorem get_or_create_group_self (s : AuthState) (n : String) :
    n ∈ (get_or_create_group s n).groups := by
  by_cases h : n ∈ s.groups <;> simp [get_or_create_group, h]

/-- group creation preserves groups already present. -/
theorem get_or_create_group_mono (s : AuthState) (n m : String)
    (h : m ∈ s.groups) : m ∈ (get_or_create_group s n).groups := by
  by_cases hn : n ∈ s.groups <;> simp [get_or_create_group, hn, h]

/-- group creation is the identity when the group exists. -/
theorem get_or_create_group_of_mem (s : AuthState) (n : String)
    (h : n ∈ s.groups) : get_or_create_group s n = s := by
  simp [get_or_create_group, h]

/-- superuser bootstrap leaves the accounts nonempty. -/
theorem ensureSuperuser_nonempty (s : AuthState) :
    (applyAuthOp .ensureSuperuser s).superusers ≠ [] := by
  by_cases h : s.superusers = [] <;> simp [applyAuthOp, List.isEmpty_iff, h]

/-- superuser bootstrap does not touch the groups. -/
theorem ensureSuperuser_groups (s : AuthState) :
    (applyAuthOp .ensureSuperuser s).groups = s.groups := by
  by_cases h : s.superusers = [] <;> simp [applyAuthOp, List.isEmpty_iff, h]

/-- superuser bootstrap is the identity when an administrative account
exists. -/
theorem ensureSuperuser_of_nonempty (s : AuthState)
    (h : s.superusers ≠ []) : applyAuthOp .ensureSuperuser s = s := by
  simp [applyAuthOp, List.isEmpty_iff, h]

/-- C10: the bootstrap step is idempotent — a second run against a store where
it already ran changes nothing, so no duplicate group and no second
administrative account is created — a failing bootstrap operation is caught
and logged, and the rest of the run (ledger, processed and skipped models,
trace, top-level error) does not depend on whether bootstrap failed. -/
theorem bootstrap_idempotent_and_nonfatal :
    (∀ s : AuthState,
      (create_base_auth_models none (create_base_auth_models none s).1).1 =
        (create_base_auth_models none s).1) ∧
    (∀ (s : AuthState) (k : Nat), k < 4 → (create_base_auth_models (some k) s).2 = true) ∧
    (∀ (cfg : RunCfg) (failAt : Option Nat) (options : List (String × PyVal))
        (allModels : List ModelDescr) (auth0 : AuthState),
      (handle { cfg with authFailAt := failAt } options allModels auth0).ledger =
          (handle cfg options allModels auth0).ledger ∧
        (handle { cfg with authFailAt := failAt } options allModels auth0).processed =
          (handle cfg options allModels auth0).processed ∧
        (handle { cfg with authFailAt := failAt } options allModels auth0).skipped =
          (handle cfg options allModels auth0).skipped ∧
        (handle { cfg with authFailAt := failAt } options allModels auth0).trace =
          (handle cfg options allModels auth0).trace ∧
        (handle { cfg with authFailAt := failAt } options allModels auth0).topError =
          (handle cfg options allModels auth0).topError) := by
  refine ⟨?_, ?_, ?_⟩
  · intro s
    show (create_base_auth_models none
        (applyAuthOp .ensureSuperuser (get_or_create_group (get_or_create_group
          (get_or_create_group s "managers") "operators") "superoperators"))).1 =
      applyAuthOp .ensureSuperuser (get_or_create_group (get_or_create_group
        (get_or_create_group s "managers") "operators") "superoperators")
    set s3 := get_or_create_group (get_or_create_group
      (get_or_create_group s "managers") "operators") "superoperators" with hs3
    have hm : "managers" ∈ s3.groups := by
      apply get_or_create_group_mono
      apply get_or_create_group_mono
      exact get_or_create_group_self s "managers"
    have ho : "operators" ∈ s3.groups := by
      apply get_or_create_group_mono
      exact get_or_create_group_self _ "operators"
    have hso : "superoperators" ∈ s3.groups := get_or_create_group_self _ _
    set s4 := applyAuthOp .ensureSuperuser s3 with hs4
    have hgm : s4.groups = s3.groups := ensureSuperuser_groups s3
    show (applyAuthOp .ensureSuperuser (get_or_create_group (get_or_create_group
      (get_or_create_group s4 "managers") "operators") "superoperators")) = s4
    rw [get_or_create_group_of_mem s4 "managers" (by rw [hgm]; exact hm)]
    rw [get_or_create_group_of_mem s4 "operators" (by rw [hgm]; exact ho)]
    rw [get_or_create_group_of_mem s4 "superoperators" (by rw [hgm]; exact hso)]
    exact ensureSuperuser_of_nonempty s4 (ensureSuperuser_nonempty s3)
  · intro s k hk
    interval_cases k <;> rfl
  · intro cfg failAt options allModels auth0
    have hstep : stepModel { cfg with authFailAt := failAt } = stepModel cfg := rfl
    cases h : modelsToProcess (dictGet options "exclude" (.strList [])) allModels with
    | error e => simp [handle, h]
    | ok ms => simp [handle, h, hstep]

/-- witness for C10: a second bootstrap on an empty store changes nothing, and
a failure of operation 2 is logged. -/
theorem bootstrap_idempotent_and_nonfatal_witness :
    (create_base_auth_models none (create_base_auth_models none ⟨[], []⟩).1).1 =
      (create_base_auth_models none ⟨[], []⟩).1 ∧
    (create_base_auth_models (some 2) ⟨[], []⟩).2 = true :=
  ⟨bootstrap_idempotent_and_nonfatal.1 ⟨[], []⟩,
    bootstrap_idempotent_and_nonfatal.2.1 ⟨[], []⟩ 2 (by decide)⟩

/-- trace of one loop iteration: the model's generation event followed by its
attachment events, against the ledger that iteration produced. -/
theorem stepModel_trace (cfg : RunCfg) (st : LoopState) (m : ModelDescr) :
    (stepModel cfg st m).trace = st.trace ++ (Event.gen (modelLabel m) ::
      (handle_many_to_many_relations cfg.rnd (stepModel cfg st m).created_objects m).map
        (fun wr => Event.attach wr.sourceLabel wr.objId wr.fieldName)) := by
  by_cases h : m.abstract <;> simp [stepModel, h]

/-- counterexample for C3: in the concrete two-model run, an attachment for
the instances of `app.a` (trace index 1) happens before the instance
generation of `app.b` has even started (its completion is trace index 101),
so many-to-many wiring is not deferred until instance generation has completed
for every model. -/
theorem m2m_before_later_generation_cx :
    traceC3.get? 1 = some (Event.attach "app.a" 0 "peers") ∧
    traceC3.get? 101 = some (Event.gen "app.b") ∧
    ¬M2MAfterAllGens traceC3 := by
  refine ⟨rfl, rfl, fun h => ?_⟩
  have h2 := h 1 101 "app.a" 0 "peers" "app.b" rfl rfl
  omega

/-- C3 as amended: many-to-many wiring is performed per model inside the
processing loop — the trace of the loop is, model by model in processing
order, that model's completed generation immediately followed by that model's
attachments — so attachments of an earlier model precede the generation of
every later model rather than following it. -/
theorem m2m_wired_inside_loop (cfg : RunCfg) (st : LoopState) (ms : List ModelDescr) :
    (ms.foldl (stepModel cfg) st).trace = st.trace ++ loopSegs cfg st ms := by
  induction ms generalizing st with
  | nil => simp [loopSegs]
  | cons m rest ih =>
    rw [List.foldl_cons, ih (stepModel cfg st m), loopSegs, stepModel_trace,
      List.append_assoc]

/-- readiness unfolded: every required target inside the set was emitted. -/
theorem ready_spec (S done : List ModelDescr) (m : ModelDescr)
    (h : readyIn S done m = true) :
    ∀ d ∈ requiredTargets m, d ∈ labelsOf S → d ∈ labelsOf done := by
  intro d hd hdS
  rw [readyIn, List.all_eq_true] at h
  have h2 := h d hd
  rw [Bool.or_eq_true] at h2
  rcases h2 with h2 | h2
  · rw [Bool.not_eq_true'] at h2
    exact absurd (List.elem_iff.mpr hdS) (by simp [List.contains] at h2; simp [h2])
  · exact List.elem_iff.mp h2

/-- readiness introduced from the emitted-targets condition. -/
theorem ready_intro (S done : List ModelDescr) (m : ModelDescr)
    (h : ∀ d ∈ requiredTargets m, d ∈ labelsOf S → d ∈ labelsOf done) :
    readyIn S done m = true := by
  rw [readyIn, List.all_eq_true]
  intro d hd
  by_cases hS : d ∈ labelsOf S <;> simp [hS, h d hd]

/-- existence of a source: in an acyclic set, some pending model has all its
in-set required targets already emitted.  Restricting the transitive closure
of the precedence relation to the finite subtype of set members makes it a
transitive irreflexive relation on a finite type, hence well-founded, and a
minimal pending element is ready. -/
theorem exists_ready (S pending done : List ModelDescr) (hacyc : NoDepCycles S)
    (hsub : ∀ x ∈ pending, x ∈ S) (hne : pending ≠ [])
    (hcover : ∀ R ∈ S, R ∈ done ∨ R ∈ pending) :
    ∃ m ∈ pending, readyIn S done m = true := by
  haveI hfin : Finite {x // x ∈ S} := S.finite_toSet.to_subtype
  let r : {x // x ∈ S} → {x // x ∈ S} → Prop :=
    fun a b => Relation.TransGen (Prec S) a.1 b.1
  haveI : IsTrans {x // x ∈ S} r := ⟨fun _ _ _ hab hbc => hab.trans hbc⟩
  haveI : IsIrrefl {x // x ∈ S} r := ⟨fun a ha => hacyc a.1 ha⟩
  have hwf : WellFounded r := Finite.wellFounded_of_trans_of_irrefl r
  obtain ⟨p, hp⟩ := List.exists_mem_of_ne_nil pending hne
  obtain ⟨m, hm, hmin⟩ :=
    hwf.has_min {a : {x // x ∈ S} | a.1 ∈ pending} ⟨⟨p, hsub p hp⟩, hp⟩
  refine ⟨m.1, hm, ready_intro S done m.1 ?_⟩
  intro d hd hdS
  obtain ⟨R, hRS, hRd⟩ := List.mem_map.mp hdS
  have hprec : Prec S R m.1 := ⟨hRS, hsub m.1 hm, by rw [hRd]; exact hd⟩
  have hnotpend : R ∉ pending := fun hRpend =>
    hmin ⟨R, hRS⟩ hRpend (Relation.TransGen.single hprec)
  rcases hcover R hRS with hdone | hpend
  · rw [← hRd]
    exact List.mem_map_of_mem modelLabel hdone
  · exact absurd hpend hnotpend

/-- appending a ready model preserves the ordering property. -/
theorem goodOrd_append (S done : List ModelDescr) (m : ModelDescr)
    (hg : GoodOrd S done)
    (hready : ∀ d ∈ requiredTargets m, d ∈ labelsOf S → d ∈ labelsOf done) :
    GoodOrd S (done ++ [m]) := by
  intro pre M post hsplit d hd hdS
  rcases List.append_eq_append_iff.mp hsplit with ⟨a, ha1, ha2⟩ | ⟨c, hc1, hc2⟩
  · cases a with
    | nil =>
      rw [List.append_nil] at ha1
      obtain ⟨hM, hpost⟩ : M = m ∧ post = [] := by
        have h3 := ha2.symm
        simp only [List.nil_append] at h3
        exact ⟨(List.cons_eq_cons.mp h3).1, (List.cons_eq_cons.mp h3).2⟩
      subst hM
      subst ha1
      exact hready d hd hdS
    | cons x a' =>
      exfalso
      have := congrArg List.length ha2
      simp at this
  · cases c with
    | nil =>
      rw [List.append_nil] at hc1
      obtain ⟨hM, hpost⟩ : M = m ∧ post = [] := by
        simp only [List.nil_append] at hc2
        exact ⟨(List.cons_eq_cons.mp hc2).1, by
          have := (List.cons_eq_cons.mp hc2).2; simpa using this⟩
      subst hM
      subst hc1
      exact hready d hd hdS
    | cons x c' =>
      have hx : M = x ∧ post = c' ++ [m] := by
        rw [List.cons_append] at hc2
        exact ⟨(List.cons_eq_cons.mp hc2).1, (List.cons_eq_cons.mp hc2).2⟩
      obtain ⟨rfl, -⟩ := hx
      exact hg pre M c' (by rw [hc1]) d hd hdS

/-- correctness of the fuelled Kahn loop: with enough fuel, starting from a
permutation invariant and a well-ordered emitted list, the loop emits a
permutation of the set that satisfies the ordering property. -/
theorem topoGo_correct (S : List ModelDescr) (hacyc : NoDepCycles S) :
    ∀ (fuel : Nat) (pending done : List ModelDescr),
      pending.length ≤ fuel → (done ++ pending).Perm S → GoodOrd S done →
      (topoGo S fuel pending done).Perm S ∧ GoodOrd S (topoGo S fuel pending done) := by
  intro fuel
  induction fuel with
  | zero =>
    intro pending done hlen hperm hgood
    have hpe : pending = [] := List.length_eq_zero.mp (Nat.le_zero.mp hlen)
    subst hpe
    refine ⟨hperm, ?_⟩
    show GoodOrd S (done ++ [])
    rw [List.append_nil]
    rw [List.append_nil] at hperm
    intro pre M post hsplit
    exact hgood pre M post hsplit
  | succ n ih =>
    intro pending done hlen hperm hgood
    by_cases hpe : pending = []
    · subst hpe
      refine ⟨hperm, ?_⟩
      show GoodOrd S (done ++ [])
      rw [List.append_nil]
      rw [List.append_nil] at hperm
      intro pre M post hsplit
      exact hgood pre M post hsplit
    · have hsub : ∀ x ∈ pending, x ∈ S := fun x hx =>
        hperm.mem_iff.mp (List.mem_append.mpr (Or.inr hx))
      have hcover : ∀ R ∈ S, R ∈ done ∨ R ∈ pending := fun R hR =>
        List.mem_append.mp (hperm.symm.mem_iff.mp hR)
      obtain ⟨m0, hm0, hready0⟩ := exists_ready S pending done hacyc hsub hpe hcover
      obtain ⟨m, hfind⟩ : ∃ m, pending.find? (readyIn S done) = some m := by
        have h1 : (pending.find? (readyIn S done)).isSome := by
          rw [List.find?_isSome]
          exact ⟨m0, hm0, hready0⟩
        exact Option.isSome_iff_exists.mp h1
      have hmp : m ∈ pending := List.mem_of_find?_eq_some hfind
      have hmready : readyIn S done m = true := List.find?_some hfind
      have hstep : topoGo S (n + 1) pending done =
          topoGo S n (pending.erase m) (done ++ [m]) := by
        simp only [topoGo, hfind]
      rw [hstep]
      apply ih
      · rw [List.length_erase_of_mem hmp]
        have hpos : 0 < pending.length := List.length_pos.mpr hpe
        omega
      · have h2 : ((done ++ [m]) ++ pending.erase m).Perm (done ++ pending) := by
          rw [List.append_assoc]
          exact List.Perm.append_left done (List.perm_cons_erase hmp).symm
        exact h2.trans hperm
      · exact goodOrd_append S done m hgood (ready_spec S done m hmready)

/-- C1 (spec-modelled, since `sort_models_by_dependencies` is absent from the
source): for a set of model descriptors with distinct labels and no
relationship-dependency cycles, the dependency orderer emits a permutation of
the set in which every model whose label is a required single-valued
relationship target of another model in the set appears before that model. -/
theorem sorted_models_respect_required_targets (S : List ModelDescr)
    (hnd : (labelsOf S).Nodup) (hacyc : NoDepCycles S) :
    (sort_models_by_dependencies S).Perm S ∧
    ∀ pre M post, sort_models_by_dependencies S = pre ++ M :: post →
      ∀ R, Prec S R M → R ∈ pre := by
  obtain ⟨hperm, hgood⟩ := topoGo_correct S hacyc S.length S []
    le_rfl (by simp) (fun pre M post h => absurd h (by simp))
  refine ⟨hperm, ?_⟩
  intro pre M post hsplit R hprec
  obtain ⟨hRS, hMS, hlab⟩ := hprec
  have hdpre : modelLabel R ∈ labelsOf pre :=
    hgood pre M post hsplit (modelLabel R) hlab (List.mem_map_of_mem modelLabel hRS)
  obtain ⟨R', hR'pre, hR'lab⟩ := List.mem_map.mp hdpre
  have hR'S : R' ∈ S := by
    have : R' ∈ sort_models_by_dependencies S := by
      rw [hsplit]
      exact List.mem_append.mpr (Or.inl hR'pre)
    exact hperm.mem_iff.mp this
  have : R' = R := List.inj_on_of_nodup_map hnd hR'S hRS hR'lab
  rw [← this]
  exact hR'pre

/-- no precedence cycles exist when a numeric measure strictly increases along
every precedence edge. -/
theorem transGen_lt_of_measure {α : Type} (r : α → α → Prop) (f : α → Nat)
    (h : ∀ x y, r x y → f x < f y) :
    ∀ x y, Relation.TransGen r x y → f x < f y := by
  intro x y hxy
  induction hxy with
  | single hr => exact h _ _ hr
  | tail _ hr ih => exact lt_trans ih (h _ _ hr)

/-- measure criterion specialized to the precedence relation of a model
set. -/
theorem noDepCycles_of_measure (S : List ModelDescr) (f : ModelDescr → Nat)
    (h : ∀ R M, Prec S R M → f R < f M) : NoDepCycles S :=
  fun m hm => lt_irrefl (f m) (transGen_lt_of_measure (Prec S) f h m m hm)

/-- witness for C1: on the concrete two-model set where `app.needsr` requires
`app.r`, the orderer emits a permutation of the set and places `app.r` in
the segment before `app.needsr`. -/
theorem sorted_models_respect_required_targets_witness :
    (sort_models_by_dependencies [modelNeeds, modelR]).Perm [modelNeeds, modelR] ∧
    modelR ∈ [modelR] := by
  have hacyc : NoDepCycles [modelNeeds, modelR] :=
    noDepCycles_of_measure [modelNeeds, modelR]
      (fun m => if m.model_name = "r" then 0 else 1)
      (by
        intro R M hprec
        obtain ⟨hR, hM, hl⟩ := hprec
        rcases List.mem_cons.mp hM with rfl | hM2
        · have hRlab : modelLabel R = "app.r" := by
            simpa [requiredTargets, modelNeeds, FieldClass.isForeignKey] using hl
          rcases List.mem_cons.mp hR with rfl | hR2
          · exact absurd hRlab (by decide)
          · rcases List.mem_cons.mp hR2 with rfl | hfalse
            · decide
            · cases hfalse
        · rcases List.mem_cons.mp hM2 with rfl | hfalse
          · exact absurd hl (by simp [requiredTargets, modelR])
          · cases hfalse)
  have hmain := sorted_models_respect_required_targets [modelNeeds, modelR] (by decide) hacyc
  exact ⟨hmain.1, hmain.2 [modelR] modelNeeds [] (by decide) modelR
    ⟨by decide, by decide, by decide⟩⟩

end DummyGen
